import Mathlib

/-!
# Lunch slash-command handler (`lunch/function.go`)

A shallow embedding of the Go package `lunch` and the properties of its
handler `Lunch`, its command parser `Parameter.parse`, the two store
operations `add` and `list`, and the renderer `sprint`.

Conventions of the embedding.

* A Go `string` is a Lean `String`; the functions of package `strings` work on
  its characters (`String.data`).  The only separator the program uses is the
  ASCII space, so characters and bytes split at the same places.
* `int64` identifiers are `Int`; the program never does arithmetic on them.
* `time.Time` is a natural number of clock ticks at the resolution the store
  keeps.
* What the process gets from outside (environment variables, the decoded
  form, the clock, the answers of the managed store) is passed explicitly in
  an `Env`; the content of the store is passed and returned explicitly.
* The handler returns an `Outcome`: besides the response it records the log
  lines and which of the store operations `add` and `list` were called.
* The managed store keeps every write and answers a query from all of them.
-/

namespace lunch

/-! ## Package `strings` and `unicode` -/

/-- Go `unicode.IsSpace`: in Latin-1 the characters tab, newline, vertical tab,
form feed, carriage return, space, U+0085 and U+00A0; beyond Latin-1 the
characters with the Unicode property White_Space. -/
def IsSpace (c : Char) : Bool :=
  let n := c.toNat
  if n ≤ 0xFF then
    n = 0x09 || n = 0x0A || n = 0x0B || n = 0x0C || n = 0x0D || n = 0x20 || n = 0x85 || n = 0xA0
  else
    n = 0x1680 || (0x2000 ≤ n && n ≤ 0x200A) || n = 0x2028 || n = 0x2029 || n = 0x202F
      || n = 0x205F || n = 0x3000

/-- Go `strings.TrimSpace`: the string without its leading and trailing white
space (`TrimRightFunc (TrimLeftFunc s IsSpace) IsSpace`). -/
def TrimSpace (s : String) : String :=
  ⟨((s.data.dropWhile IsSpace).reverse.dropWhile IsSpace).reverse⟩

/-- Go `strings.Index` on character lists: the position of the first occurrence
of `sep` in `s`, `none` for Go's `-1`. -/
def Index : List Char → List Char → Option Nat
  | [], sep => if sep = [] then some 0 else none
  | x :: xs, sep =>
    if sep.isPrefixOf (x :: xs) then some 0 else (Index xs sep).map (· + 1)

/-- The loop of Go `strings.genSplit` for a non-empty separator: at most `k`
cuts at successive occurrences of `sep`, then the rest as last element. -/
def genSplit (sep : List Char) : Nat → List Char → List String
  | 0, s => [⟨s⟩]
  | k + 1, s =>
    match Index s sep with
    | none => [⟨s⟩]
    | some m => ⟨s.take m⟩ :: genSplit sep k (s.drop (m + sep.length))

/-- Go `strings.SplitN s sep n` for a non-empty separator and `n ≥ 0`: `n = 0`
gives no element, otherwise at most `n` substrings, the last one being the
unsplit remainder.  (Go also caps `n` at `len(s) + 1` before allocating, which
does not change the result.) -/
def SplitN (s sep : String) (n : Nat) : List String :=
  if n = 0 then [] else genSplit sep.data (n - 1) s.data

/-! ## Data model -/

/-- Go `Parameter`: the parsed command text. -/
structure Parameter where
  SubCommand : String
  Value : String
deriving DecidableEq, Repr

/-- The zero value `new(Parameter)`. -/
def Parameter.zero : Parameter := ⟨"", ""⟩

/-- Go `(*Parameter).parse`: trims the text, returns without touching the
parameter when nothing is left, otherwise splits at the first space into
`SubCommand` and (when there is a second part) `Value`. -/
def Parameter.parse (p : Parameter) (text : String) : Parameter :=
  let t := TrimSpace text
  if t.length < 1 then p
  else
    let s := SplitN t " " 2
    let p := { p with SubCommand := s.getD 0 "" }
    if s.length = 1 then p
    else { p with Value := s.getD 1 "" }

/-- Go `Restaurant`: what `list` hands to the caller.  `ID` is tagged
`datastore:"-"`: it is not stored and not loaded. -/
structure Restaurant where
  ID : Int
  Name : String
  Created : Nat
deriving DecidableEq, Repr

/-- Go `datastore.Key` (kind and numeric identifier; identifier `0` means the
key is incomplete). -/
structure Key where
  Kind : String
  ID : Int
deriving DecidableEq, Repr

/-- An entity as the managed store holds it: its key and the stored properties
`name` and `created`. -/
structure Entity where
  key : Key
  name : String
  created : Nat
deriving DecidableEq, Repr

/-- The content of the managed store, the entity written last first. -/
abbrev Datastore := List Entity

/-- Go `url.Values`: the decoded form, each field with its values. -/
structure Values where
  fields : List (String × List String)
deriving DecidableEq, Repr

/-- Go `Values.Get`: the first value of the field, `""` when there is none. -/
def Values.Get (v : Values) (key : String) : String :=
  match v.fields.lookup key with
  | some (x :: _) => x
  | _ => ""

/-- What one invocation receives from outside the package.  A Go `error` is
represented by its message, `none` being `nil`. -/
structure Env where
  /-- Value of `os.Getenv("SLACK_TOKEN")`. -/
  SLACK_TOKEN : String
  /-- Value of `os.Getenv("PROJECT_NAME")`. -/
  PROJECT_NAME : String
  /-- Go `url.ParseQuery`: the decoded fields and the error, if any. -/
  ParseQuery : String → Values × Option String
  /-- Go `datastore.NewClient` for a project: its error, if any. -/
  NewClient : String → Option String
  /-- Reading of `time.Now()`. -/
  Now : Nat
  /-- Error with which the store answers a `Put`, if any. -/
  PutErr : Option String
  /-- Identifier the store assigns when the key of a `Put` is incomplete. -/
  NewID : Int
  /-- Error with which the store answers a `GetAll`, if any. -/
  GetAllErr : Option String

/-- The part of `*http.Request` the handler reads: the method and the result of
`ioutil.ReadAll(r.Body)`. -/
structure Request where
  Method : String
  Body : Except String String

/-- Status and body written to the `http.ResponseWriter`. -/
structure Response where
  status : Nat
  body : String
deriving DecidableEq, Repr

/-- A call of one of the two store operations of the package. -/
inductive StoreCall where
  | add (value : String)
  | list
deriving DecidableEq, Repr

/-- Everything observable of one run of the handler: the response (`none` when
the handler stopped in a run-time panic before writing one), the lines given
to `log`, the store operations called, and the content of the store after. -/
structure Outcome where
  resp : Option Response
  log : List String
  calls : List StoreCall
  db : Datastore
deriving DecidableEq, Repr

/-- Go `http.StatusOK`. -/
def StatusOK : Nat := 200

/-- Go `http.StatusUnauthorized`. -/
def StatusUnauthorized : Nat := 401

/-- Go `http.StatusMethodNotAllowed`. -/
def StatusMethodNotAllowed : Nat := 405

/-- Go `http.StatusInternalServerError`. -/
def StatusInternalServerError : Nat := 500

/-! ## The managed store -/

/-- Go `datastore.IncompleteKey kind nil`. -/
def IncompleteKey (kind : String) : Key := ⟨kind, 0⟩

/-- Go `datastore.Query` as far as the program builds one. -/
structure Query where
  kind : String
  order : Option String
  limit : Option Nat
deriving DecidableEq, Repr

/-- Go `datastore.NewQuery kind`. -/
def NewQuery (kind : String) : Query := ⟨kind, none, none⟩

/-- Go `(*Query).Order fieldName`. -/
def Query.Order (q : Query) (fieldName : String) : Query := { q with order := some fieldName }

/-- Go `(*Query).Limit n`. -/
def Query.Limit (q : Query) (n : Nat) : Query := { q with limit := some n }

/-- Order of the results of a query sorted on `created`, latest first. -/
def createdDesc (a b : Entity) : Prop := b.created ≤ a.created

instance : DecidableRel createdDesc := fun a b => inferInstanceAs (Decidable (b.created ≤ a.created))

instance : IsTotal Entity createdDesc := ⟨fun a b => Nat.le_total b.created a.created⟩

instance : IsTrans Entity createdDesc := ⟨fun _ _ _ hab hbc => Nat.le_trans hbc hab⟩

/-- Modelled from the spec: the client library `cloud.google.com/go/datastore`
and the service behind it are not part of the repository.  `Client.Put` either
fails with the service's error and stores nothing, or stores the entity; for an
incomplete key the service assigns the identifier (section 3: "integer
identifier assigned by the store at creation time").  The field `ID` of the
struct is not stored. -/
def Put (env : Env) (k : Key) (r : Restaurant) (db : Datastore) : Except String (Key × Datastore) :=
  match env.PutErr with
  | some err => .error err
  | none =>
    if k.ID = 0 then
      let k1 : Key := { k with ID := env.NewID }
      .ok (k1, ⟨k1, r.Name, r.Created⟩ :: db)
    else
      .ok (k, ⟨k, r.Name, r.Created⟩ :: db.filter (fun e => e.key ≠ k))

/-- Modelled from the spec: the client library `cloud.google.com/go/datastore`
and the service behind it are not part of the repository.  `Client.GetAll`
either fails with the service's error, or returns the entities of the query's
kind, for the order `-created` sorted on `created` descending, cut to the
limit, as two slices of equal length: the keys, and the loaded structs whose
`ID` is left at zero ("the query itself does not populate the identifier
field").  Orders other than `-created` and none are not modelled. -/
def GetAll (env : Env) (q : Query) (db : Datastore) : Except String (List Key × List Restaurant) :=
  match env.GetAllErr with
  | some err => .error err
  | none =>
    let es := db.filter (fun e => e.key.Kind = q.kind)
    let sorted : Except String (List Entity) :=
      match q.order with
      | none => .ok es
      | some f => if f = "-created" then .ok (es.insertionSort createdDesc)
                  else .error "datastore: order not modelled"
    match sorted with
    | .error err => .error err
    | .ok es =>
      let es := match q.limit with
        | some n => es.take n
        | none => es
      .ok (es.map (·.key), es.map (fun e => ⟨0, e.name, e.created⟩))

/-! ## The package's functions -/

/-- Go `add`: opens a client, then puts a new `Restaurant` with the given name
and the current time under an incomplete key.  Returns the error (`none` for
`nil`) and the content of the store afterwards. -/
def add (env : Env) (value : String) (db : Datastore) : Option String × Datastore :=
  match env.NewClient env.PROJECT_NAME with
  | some err => (some err, db)
  | none =>
    let newKey := IncompleteKey "Restaurant"
    let r : Restaurant := { ID := 0, Name := value, Created := env.Now }
    match Put env newKey r db with
    | .error err => (some err, db)
    | .ok (_, db1) => (none, db1)

/-- The loop `for i := 0; i < len(r); i++ { r[i].ID = keys[i].ID }` of Go
`list`; `none` is the run-time panic of `keys[i]` out of range. -/
def fillIDs : List Restaurant → List Key → Option (List Restaurant)
  | [], _ => some []
  | _ :: _, [] => none
  | r :: rs, k :: ks => (fillIDs rs ks).map ({ r with ID := k.ID } :: ·)

/-- Go `list`: opens a client, runs the query for the five latest restaurants
and copies each key's identifier into its struct.  The outer `none` is a
run-time panic. -/
def list (env : Env) (db : Datastore) : Option (Except String (List Restaurant)) :=
  match env.NewClient env.PROJECT_NAME with
  | some err => some (.error err)
  | none =>
    let q := ((NewQuery "Restaurant").Order "-created").Limit 5
    match GetAll env q db with
    | .error err => some (.error err)
    | .ok (keys, r) => (fillIDs r keys).map .ok

/-- Go `fmt.Sprintf("[%v] %v\n", r.ID, r.Name)`. -/
def line (r : Restaurant) : String :=
  "[" ++ toString r.ID ++ "] " ++ r.Name ++ "\n"

/-- Go `sprint`: appends one formatted piece per restaurant to the empty
string, in slice order. -/
def sprint (l : List Restaurant) : String :=
  l.foldl (fun s r => s ++ line r) ""

/-- Go `Lunch`, the HTTP handler. -/
def Lunch (env : Env) (r : Request) (db : Datastore) : Outcome :=
  if r.Method ≠ "POST" then
    let e := "Method Not Allowed."
    ⟨some ⟨StatusMethodNotAllowed, e⟩, [e], [], db⟩
  else
    match r.Body with
    | .error err => ⟨some ⟨StatusInternalServerError, err⟩, ["ReadAllError: " ++ err], [], db⟩
    | .ok b =>
      match env.ParseQuery b with
      | (_, some err) =>
        ⟨some ⟨StatusInternalServerError, err⟩, ["ParsedQueryError: " ++ err], [], db⟩
      | (parsed, none) =>
        if parsed.Get "token" ≠ env.SLACK_TOKEN then
          let e := "Unauthorized Token."
          ⟨some ⟨StatusUnauthorized, e⟩, [e], [], db⟩
        else
          let p := Parameter.zero.parse (parsed.Get "text")
          if p.SubCommand = "add" then
            match add env p.Value db with
            | (some err, db1) =>
              ⟨some ⟨StatusInternalServerError, err⟩, ["DatastorePutError: " ++ err],
                [.add p.Value], db1⟩
            | (none, db1) => ⟨some ⟨StatusOK, p.Value⟩, [], [.add p.Value], db1⟩
          else if p.SubCommand = "list" then
            match list env db with
            | none => ⟨none, [], [.list], db⟩
            | some (.error err) =>
              ⟨some ⟨StatusInternalServerError, err⟩, ["DatastoreGetAllError: " ++ err],
                [.list], db⟩
            | some (.ok l) => ⟨some ⟨StatusOK, sprint l⟩, [], [.list], db⟩
          else
            let e := "Invalid SubCommand."
            ⟨some ⟨StatusInternalServerError, e⟩, [e], [], db⟩

/-- The `token` form field of a request as the handler reads it:
`parsed.Get("token")` of the decoded body; `none` when the body cannot be
read. -/
def tokenField (env : Env) (r : Request) : Option String :=
  match r.Body with
  | .ok b => some ((env.ParseQuery b).1.Get "token")
  | .error _ => none

/-- Successive `add` calls, one per name, each with its own environment (clock
reading, assigned identifier, answers of the store); `none` as soon as one of
the calls returns an error. -/
def addAll : List (Env × String) → Datastore → Option Datastore
  | [], db => some db
  | (env, value) :: rest, db =>
    match add env value db with
    | (none, db1) => addAll rest db1
    | (some _, _) => none

/-- The entity an `add` call in environment `env` with name `value` stores, as
`list` returns it. -/
def added (step : Env × String) : Restaurant :=
  { ID := step.1.NewID, Name := step.2, Created := step.1.Now }

/-- A stored entity as `list` returns it: the loaded properties with the
identifier of the key filled in. -/
def restaurantOf (e : Entity) : Restaurant :=
  { ID := e.key.ID, Name := e.name, Created := e.created }

/-- The entities of kind "Restaurant" in the store, in storage order. -/
def restaurants (db : Datastore) : List Entity :=
  db.filter (fun e => e.key.Kind = "Restaurant")

/-- The entity an `add` call in environment `step.1` with name `step.2` puts
into the store. -/
def stored (step : Env × String) : Entity :=
  { key := ⟨"Restaurant", step.1.NewID⟩, name := step.2, created := step.1.Now }

/-- The piece of an entity without the closing newline: `[<id>] <name>`. -/
def lineText (r : Restaurant) : String :=
  "[" ++ toString r.ID ++ "] " ++ r.Name

/-- The rendering in the words of the specification: the lines `[<id>] <name>`
joined by newlines. -/
def newlineJoined (l : List Restaurant) : String :=
  "\n".intercalate (l.map lineText)

/-! ## A form decoder for the examples

`Env.ParseQuery` stands for Go's `url.ParseQuery`, which is outside the
package; every theorem below holds for any decoder.  The examples use the
following one, written after `net/url`: pairs separated by `&`, key and value
separated by the first `=`, `+` decoded as a space and `%XX` as the character
with that code (exact for codes below 0x80). -/

/-- Value of a hexadecimal digit, `none` for any other character. -/
def unhex (c : Char) : Option Nat :=
  if '0' ≤ c ∧ c ≤ '9' then some (c.toNat - '0'.toNat)
  else if 'a' ≤ c ∧ c ≤ 'f' then some (c.toNat - 'a'.toNat + 10)
  else if 'A' ≤ c ∧ c ≤ 'F' then some (c.toNat - 'A'.toNat + 10)
  else none

/-- Message of `url.EscapeError` for the escape at the head of `s`. -/
def escapeError (s : List Char) : String :=
  "invalid URL escape \"" ++ String.mk (s.take 3) ++ "\""

/-- Decoding of one key or value: `+` is a space, `%XX` the character with
code `XX`; a `%` not followed by two hexadecimal digits is an error. -/
def QueryUnescape : List Char → Except String (List Char)
  | [] => .ok []
  | c :: rest =>
    if c = '%' then
      match rest with
      | a :: b :: rest2 =>
        match unhex a, unhex b with
        | some x, some y => (QueryUnescape rest2).map (Char.ofNat (16 * x + y) :: ·)
        | _, _ => .error (escapeError (c :: rest))
      | _ => .error (escapeError (c :: rest))
    else if c = '+' then (QueryUnescape rest).map (' ' :: ·)
    else (QueryUnescape rest).map (c :: ·)

/-- The pieces of a query between the `&` separators. -/
def splitPairs : List Char → List (List Char)
  | [] => [[]]
  | c :: cs =>
    if c = '&' then [] :: splitPairs cs
    else
      match splitPairs cs with
      | [] => [[c]]
      | x :: xs => (c :: x) :: xs

/-- Go `m[key] = append(m[key], value)`. -/
def Values.Add (v : Values) (key value : String) : Values :=
  match v.fields.lookup key with
  | some vs => ⟨(key, vs ++ [value]) :: v.fields.filter (fun kv => kv.1 ≠ key)⟩
  | none => ⟨v.fields ++ [(key, [value])]⟩

/-- One round of the loop of `url.parseQuery` on the piece `kv`. -/
def decodePair (acc : Values × Option String) (kv : List Char) : Values × Option String :=
  if ';' ∈ kv then (acc.1, some "invalid semicolon separator in query")
  else if kv = [] then acc
  else
    let key := kv.takeWhile (· ≠ '=')
    let value := (kv.dropWhile (· ≠ '=')).drop 1
    match QueryUnescape key with
    | .error e => (acc.1, acc.2.orElse (fun _ => some e))
    | .ok k =>
      match QueryUnescape value with
      | .error e => (acc.1, acc.2.orElse (fun _ => some e))
      | .ok val => (acc.1.Add ⟨k⟩ ⟨val⟩, acc.2)

/-- The decoded fields of a query and the first error met, if any. -/
def formDecode (query : String) : Values × Option String :=
  (splitPairs query.data).foldl decodePair (⟨[]⟩, none)

/-- An environment for the examples: every store operation succeeds, the next
identifier is 42 and the clock reads 1000. -/
def exampleEnv : Env :=
  { SLACK_TOKEN := "s3cret"
    PROJECT_NAME := "lunch-project"
    ParseQuery := formDecode
    NewClient := fun _ => none
    Now := 1000
    PutErr := none
    NewID := 42
    GetAllErr := none }

/-- The example environment with a store that refuses the `Put`. -/
def failingEnv : Env := { exampleEnv with PutErr := some "rpc error: unavailable" }

/-- A store with seven restaurants, for the examples. -/
def sevenRestaurants : Datastore :=
  [⟨⟨"Restaurant", 31⟩, "Udon", 300⟩, ⟨⟨"Restaurant", 12⟩, "Soba", 700⟩,
   ⟨⟨"Restaurant", 55⟩, "Ramen", 100⟩, ⟨⟨"Restaurant", 8⟩, "Sushi", 600⟩,
   ⟨⟨"Restaurant", 97⟩, "Curry", 200⟩, ⟨⟨"Restaurant", 40⟩, "Tempura", 500⟩,
   ⟨⟨"Restaurant", 63⟩, "Yakitori", 400⟩]

/-- Three `add` calls for the examples, at clock readings 10, 20, 30, with the
identifiers 501, 17 and 260 assigned by the store. -/
def threeAdds : List (Env × String) :=
  [({ exampleEnv with Now := 10, NewID := 501 }, "Soba"),
   ({ exampleEnv with Now := 20, NewID := 17 }, "Sushi Place"),
   ({ exampleEnv with Now := 30, NewID := 260 }, "Udon")]

/-- A POST request whose body is read without error. -/
def post (body : String) : Request := ⟨"POST", .ok body⟩

/-! ## Lemmas on the string functions -/

theorem TrimSpace_data (s : String) :
    (TrimSpace s).data = (s.data.dropWhile IsSpace).rdropWhile IsSpace := by
  simp [TrimSpace, List.rdropWhile]

theorem TrimSpace_blank (s : String) (h : ∀ c ∈ s.data, IsSpace c = true) :
    (TrimSpace s).data = [] := by
  rw [TrimSpace_data]
  have h1 : s.data.dropWhile IsSpace = [] := List.dropWhile_eq_nil_iff.mpr h
  rw [h1]
  simp

theorem TrimSpace_ne_nil (s : String) (c : Char) (hc : c ∈ s.data) (hs : IsSpace c = false) :
    (TrimSpace s).data ≠ [] := by
  rw [TrimSpace_data]
  intro h
  have h1 := List.rdropWhile_eq_nil_iff.mp h
  have h2 : s.data.dropWhile IsSpace = [] := by
    cases hd : s.data.dropWhile IsSpace with
    | nil => rfl
    | cons x xs =>
      exfalso
      have hx : IsSpace x = true := h1 x (by rw [hd]; simp)
      have hnot := List.head?_dropWhile_not IsSpace s.data
      rw [hd] at hnot
      simp [hx] at hnot
  have h3 := List.dropWhile_eq_nil_iff.mp h2 c hc
  rw [hs] at h3
  exact Bool.noConfusion h3

theorem TrimSpace_head (s : String) (c : Char) (h : (TrimSpace s).data.head? = some c) :
    IsSpace c = false := by
  rw [TrimSpace_data] at h
  obtain ⟨r, hr⟩ : (s.data.dropWhile IsSpace).rdropWhile IsSpace <+: s.data.dropWhile IsSpace :=
    List.rdropWhile_prefix IsSpace _
  cases ht : (s.data.dropWhile IsSpace).rdropWhile IsSpace with
  | nil => rw [ht] at h; simp at h
  | cons x xs =>
    rw [ht] at h hr
    have hx : x = c := by simpa using h
    have hnot := List.head?_dropWhile_not IsSpace s.data
    rw [← hr] at hnot
    subst hx
    simpa using hnot

theorem TrimSpace_getLast (s : String) (c : Char) (h : (TrimSpace s).data.getLast? = some c) :
    IsSpace c = false := by
  rw [TrimSpace_data] at h
  have hne : (s.data.dropWhile IsSpace).rdropWhile IsSpace ≠ [] := by
    intro h0; rw [h0] at h; simp at h
  have hl := List.rdropWhile_last_not IsSpace (s.data.dropWhile IsSpace) hne
  rw [List.getLast?_eq_getLast _ hne] at h
  have hc : ((s.data.dropWhile IsSpace).rdropWhile IsSpace).getLast hne = c := by simpa using h
  rw [hc] at hl
  simpa using hl

theorem rdropWhile_append_rtakeWhile (p : Char → Bool) (l : List Char) :
    l.rdropWhile p ++ l.rtakeWhile p = l := by
  unfold List.rdropWhile List.rtakeWhile
  rw [← List.reverse_append, List.takeWhile_append_dropWhile, List.reverse_reverse]

theorem TrimSpace_decomp (s : String) :
    ∃ pre post : List Char, s.data = pre ++ (TrimSpace s).data ++ post ∧
      (∀ c ∈ pre, IsSpace c = true) ∧ (∀ c ∈ post, IsSpace c = true) := by
  refine ⟨s.data.takeWhile IsSpace, (s.data.dropWhile IsSpace).rtakeWhile IsSpace, ?_, ?_, ?_⟩
  · rw [TrimSpace_data, List.append_assoc, rdropWhile_append_rtakeWhile,
      List.takeWhile_append_dropWhile]
  · intro c hc
    exact List.mem_takeWhile_imp hc
  · intro c hc
    exact List.mem_rtakeWhile_imp hc

theorem Index_first (a b : List Char) (h : ' ' ∉ a) :
    Index (a ++ ' ' :: b) [' '] = some a.length := by
  induction a with
  | nil => simp [Index]
  | cons x a ih =>
    have hx : x ≠ ' ' := fun e => h (by simp [e])
    have ha : ' ' ∉ a := fun e => h (by simp [e])
    have hx2 : ¬ (' ' = x) := fun e => hx e.symm
    simp [Index, ih ha, hx2]

theorem Index_absent (s : List Char) (h : ' ' ∉ s) : Index s [' '] = none := by
  induction s with
  | nil => simp [Index]
  | cons x a ih =>
    have ha : ' ' ∉ a := fun e => h (by simp [e])
    have hx2 : ¬ (' ' = x) := fun e => h (List.mem_cons.mpr (Or.inl e))
    simp [Index, ih ha, hx2]

theorem exists_first_space (t : List Char) (h : ' ' ∈ t) :
    ∃ a b, t = a ++ ' ' :: b ∧ ' ' ∉ a := by
  induction t with
  | nil => simp at h
  | cons x t ih =>
    by_cases hx : x = ' '
    · exact ⟨[], t, by simp [hx], by simp⟩
    · have ht : ' ' ∈ t := by
        rcases List.mem_cons.mp h with e | e
        · exact absurd e.symm hx
        · exact e
      obtain ⟨a, b, hab, ha⟩ := ih ht
      refine ⟨x :: a, b, by simp [hab], ?_⟩
      intro hmem
      rcases List.mem_cons.mp hmem with e | e
      · exact hx e.symm
      · exact ha e

theorem takeWhile_first_space (a b : List Char) (ha : ' ' ∉ a) :
    (a ++ ' ' :: b).takeWhile (· ≠ ' ') = a := by
  induction a with
  | nil => simp [List.takeWhile]
  | cons x a ih =>
    have hx : x ≠ ' ' := fun e => ha (List.mem_cons.mpr (Or.inl e.symm))
    have ha2 : ' ' ∉ a := fun e => ha (List.mem_cons.mpr (Or.inr e))
    have := ih ha2
    simp [List.takeWhile, hx]
    simpa using this

theorem parse_blank (p : Parameter) (text : String) (h : (TrimSpace text).data = []) :
    p.parse text = p := by
  have hl : (TrimSpace text).length = 0 := by
    show (TrimSpace text).data.length = 0
    rw [h]; rfl
  simp [Parameter.parse, hl]

theorem parse_split (p : Parameter) (text : String) (a b : List Char)
    (ht : (TrimSpace text).data = a ++ ' ' :: b) (ha : ' ' ∉ a) :
    p.parse text = ⟨⟨a⟩, ⟨b⟩⟩ := by
  have hl : ¬ (TrimSpace text).length < 1 := by
    show ¬ (TrimSpace text).data.length < 1
    rw [ht]; simp
  have hs : SplitN (TrimSpace text) " " 2 = [⟨a⟩, ⟨b⟩] := by
    have hsp : (" " : String).data = [' '] := rfl
    simp [SplitN, genSplit, ht, hsp, Index_first a b ha]
  simp [Parameter.parse, hl, hs]

theorem parse_whole (p : Parameter) (text : String) (hne : (TrimSpace text).data ≠ [])
    (h : ' ' ∉ (TrimSpace text).data) :
    p.parse text = ⟨TrimSpace text, p.Value⟩ := by
  have hl : ¬ (TrimSpace text).length < 1 := by
    show ¬ (TrimSpace text).data.length < 1
    have := List.length_pos.mpr hne
    omega
  have hs : SplitN (TrimSpace text) " " 2 = [TrimSpace text] := by
    have hsp : (" " : String).data = [' '] := rfl
    simp [SplitN, genSplit, hsp, Index_absent _ h]
  simp [Parameter.parse, hl, hs]


/-! ## The handler before the dispatch -/

/-- C1: every request whose method is not "POST" is answered with status 405
and the body "Method Not Allowed.", whatever its body is; the message is
logged, neither `add` nor `list` is called and the store is left as it was. -/
theorem Lunch_method_not_allowed (env : Env) (r : Request) (db : Datastore)
    (h : r.Method ≠ "POST") :
    Lunch env r db =
      ⟨some ⟨405, "Method Not Allowed."⟩, ["Method Not Allowed."], [], db⟩ := by
  simp [Lunch, h, StatusMethodNotAllowed]

theorem Lunch_method_not_allowed_witness :
    ("GET" : String) ≠ "POST" ∧
    Lunch exampleEnv ⟨"GET", .ok "token=s3cret&text=add+Sushi+Place"⟩ [] =
      ⟨some ⟨405, "Method Not Allowed."⟩, ["Method Not Allowed."], [], []⟩ :=
  ⟨by decide, Lunch_method_not_allowed exampleEnv ⟨"GET", .ok "token=s3cret&text=add+Sushi+Place"⟩ []
    (by decide)⟩

/-- C2, as stated, fails: a GET request whose `token` field differs from the
secret is answered with 405, and a POST request with such a token whose form
does not decode is answered with 500; neither gets 401. -/
theorem token_mismatch_not_always_401 :
    (tokenField exampleEnv ⟨"GET", .ok "token=wrong&text=list"⟩ = some "wrong" ∧
      "wrong" ≠ exampleEnv.SLACK_TOKEN ∧
      (Lunch exampleEnv ⟨"GET", .ok "token=wrong&text=list"⟩ []).resp =
        some ⟨405, "Method Not Allowed."⟩) ∧
    (tokenField exampleEnv (post "token=wrong&text=%zz") = some "wrong" ∧
      (Lunch exampleEnv (post "token=wrong&text=%zz") []).resp =
        some ⟨500, "invalid URL escape \"%zz\""⟩) := by
  decide

/-- C2, amended: a POST request whose body is read and decoded without error
and whose `token` field differs from the configured secret is answered with
status 401 and the body "Unauthorized Token."; no store operation is called. -/
theorem Lunch_unauthorized (env : Env) (r : Request) (db : Datastore) (b : String)
    (vals : Values) (hm : r.Method = "POST") (hb : r.Body = .ok b)
    (hp : env.ParseQuery b = (vals, none)) (ht : vals.Get "token" ≠ env.SLACK_TOKEN) :
    Lunch env r db =
      ⟨some ⟨401, "Unauthorized Token."⟩, ["Unauthorized Token."], [], db⟩ := by
  simp [Lunch, hm, hb, hp, ht, StatusUnauthorized]

theorem Lunch_unauthorized_witness :
    Lunch exampleEnv (post "token=wrong&text=list") [] =
      ⟨some ⟨401, "Unauthorized Token."⟩, ["Unauthorized Token."], [], []⟩ :=
  Lunch_unauthorized exampleEnv (post "token=wrong&text=list") [] "token=wrong&text=list"
    ⟨[("token", ["wrong"]), ("text", ["list"])]⟩ rfl rfl (by decide) (by decide)

/-- C10: a request whose `token` field differs from the configured secret,
whatever its method and body, makes the handler call neither `add` nor `list`;
the store is unchanged, the response is the same for every content of the
store, and a response is written whose status is not 200. -/
theorem Lunch_bad_token_no_store (env : Env) (r : Request) (db : Datastore)
    (h : tokenField env r ≠ some env.SLACK_TOKEN) :
    (Lunch env r db).calls = [] ∧ (Lunch env r db).db = db ∧
    (∀ db2 : Datastore, (Lunch env r db2).resp = (Lunch env r db).resp) ∧
    ∃ resp, (Lunch env r db).resp = some resp ∧ resp.status ≠ 200 := by
  by_cases hm : r.Method = "POST"
  · cases hb : r.Body with
    | error err =>
      simp [Lunch, hm, hb, StatusInternalServerError]
    | ok b =>
      have ht : (env.ParseQuery b).1.Get "token" ≠ env.SLACK_TOKEN := by
        intro e
        apply h
        simp [tokenField, hb, e]
      rcases hq : env.ParseQuery b with ⟨vals, err⟩
      rw [hq] at ht
      cases err with
      | some e => simp [Lunch, hm, hb, hq, StatusInternalServerError]
      | none => simp [Lunch, hm, hb, hq, ht, StatusUnauthorized]
  · simp [Lunch, hm, StatusMethodNotAllowed]

theorem Lunch_bad_token_no_store_witness :
    (Lunch exampleEnv (post "token=wrong&text=add+Soba") []).calls = [] ∧
    (Lunch exampleEnv (post "token=wrong&text=add+Soba") []).db = [] ∧
    (∀ db2 : Datastore, (Lunch exampleEnv (post "token=wrong&text=add+Soba") db2).resp =
      (Lunch exampleEnv (post "token=wrong&text=add+Soba") []).resp) ∧
    ∃ resp, (Lunch exampleEnv (post "token=wrong&text=add+Soba") []).resp = some resp ∧
      resp.status ≠ 200 :=
  Lunch_bad_token_no_store exampleEnv (post "token=wrong&text=add+Soba") [] (by decide)

/-! ## The command parser -/

/-- C3: `parse` on a zero-valued parameter splits the trimmed text at its first
space.  The trimmed text is the text without a leading and a trailing run of
white space, and it neither starts nor ends with white space.  If the trimmed
text is `a`, a space, `b` with no space in `a`, then `SubCommand = a` and
`Value = b`; if it is non-empty without a space, `SubCommand` is the whole
trimmed text and `Value = ""`.  "add Sushi Place" gives ("add", "Sushi Place")
and "list" gives ("list", ""). -/
theorem parse_splits_at_first_space (text : String) :
    (∃ pre post : List Char, text.data = pre ++ (TrimSpace text).data ++ post ∧
      (∀ c ∈ pre, IsSpace c = true) ∧ (∀ c ∈ post, IsSpace c = true) ∧
      (∀ c, (TrimSpace text).data.head? = some c → IsSpace c = false) ∧
      (∀ c, (TrimSpace text).data.getLast? = some c → IsSpace c = false)) ∧
    (∀ a b : List Char, (TrimSpace text).data = a ++ ' ' :: b → ' ' ∉ a →
      Parameter.zero.parse text = ⟨⟨a⟩, ⟨b⟩⟩) ∧
    ((TrimSpace text).data ≠ [] → ' ' ∉ (TrimSpace text).data →
      Parameter.zero.parse text = ⟨TrimSpace text, ""⟩) ∧
    Parameter.zero.parse "add Sushi Place" = ⟨"add", "Sushi Place"⟩ ∧
    Parameter.zero.parse "list" = ⟨"list", ""⟩ := by
  refine ⟨?_, ?_, ?_, by decide, by decide⟩
  · obtain ⟨pre, post, h1, h2, h3⟩ := TrimSpace_decomp text
    exact ⟨pre, post, h1, h2, h3, TrimSpace_head text, TrimSpace_getLast text⟩
  · intro a b ht ha
    exact parse_split _ text a b ht ha
  · intro hne h
    exact parse_whole _ text hne h

theorem parse_splits_at_first_space_witness :
    Parameter.zero.parse "  add Sushi  Place\n" = ⟨"add", "Sushi  Place"⟩ ∧
    Parameter.zero.parse "\tlist " = ⟨"list", ""⟩ :=
  ⟨(parse_splits_at_first_space "  add Sushi  Place\n").2.1 "add".data "Sushi  Place".data
      (by decide) (by decide),
    (parse_splits_at_first_space "\tlist ").2.2.1 (by decide) (by decide)⟩

/-- C4: for a text that is empty or all white space (`unicode.IsSpace`, the
characters `TrimSpace` removes), `parse` leaves
`SubCommand = ""` and `Value = ""`, and a POST request with the valid token
that carries this text is answered with status 500 and the body
"Invalid SubCommand."; no store operation is called and the store is
unchanged. -/
theorem blank_text_invalid_subcommand (text : String)
    (h : ∀ c ∈ text.data, IsSpace c = true) :
    Parameter.zero.parse text = ⟨"", ""⟩ ∧
    ∀ (env : Env) (r : Request) (db : Datastore) (b : String) (vals : Values),
      r.Method = "POST" → r.Body = .ok b → env.ParseQuery b = (vals, none) →
      vals.Get "token" = env.SLACK_TOKEN → vals.Get "text" = text →
      Lunch env r db =
        ⟨some ⟨500, "Invalid SubCommand."⟩, ["Invalid SubCommand."], [], db⟩ := by
  have hp : Parameter.zero.parse text = ⟨"", ""⟩ :=
    parse_blank Parameter.zero text (TrimSpace_blank text h)
  refine ⟨hp, ?_⟩
  intro env r db b vals hm hb hq ht hx
  have h1 : ¬ (("" : String) = "add") := by decide
  have h2 : ¬ (("" : String) = "list") := by decide
  simp [Lunch, hm, hb, hq, ht, hx, hp, h1, h2, StatusInternalServerError]

theorem blank_text_invalid_subcommand_witness :
    Parameter.zero.parse " \t\n " = ⟨"", ""⟩ ∧
    Lunch exampleEnv (post "token=s3cret&text=+%09%0A+") [] =
      ⟨some ⟨500, "Invalid SubCommand."⟩, ["Invalid SubCommand."], [], []⟩ :=
  ⟨(blank_text_invalid_subcommand " \t\n " (by decide)).1,
    (blank_text_invalid_subcommand " \t\n " (by decide)).2 exampleEnv
      (post "token=s3cret&text=+%09%0A+") [] "token=s3cret&text=+%09%0A+"
      ⟨[("token", ["s3cret"]), ("text", [" \t\n "])]⟩ rfl rfl (by decide) (by decide) (by decide)⟩

/-- C9, as stated, fails: for the text "add", tab, "Sushi" the sub-command is
the whole text, which contains the white-space character tab; the maximal
prefix of the trimmed text free of white space is "add". -/
theorem SubCommand_may_contain_whitespace :
    (∃ c ∈ "add\tSushi".data, IsSpace c = false) ∧
    (Parameter.zero.parse "add\tSushi").SubCommand = "add\tSushi" ∧
    '\t' ∈ (Parameter.zero.parse "add\tSushi").SubCommand.data ∧ IsSpace '\t' = true ∧
    (TrimSpace "add\tSushi").data.takeWhile (fun c => !IsSpace c) = "add".data := by
  refine ⟨⟨'a', by decide, by decide⟩, by decide, by decide, by decide, by decide⟩

/-- C9, amended: for a text with a character that is not white space, the
sub-command is the first token of the trimmed text delimited by the space
character U+0020: it is not empty, starts with a character that is not white
space, contains no space character, and is the longest prefix of the trimmed
text without a space (it is the whole trimmed text or is followed there by a
space).  White space other than the space character may occur inside it. -/
theorem SubCommand_first_space_token (text : String)
    (h : ∃ c ∈ text.data, IsSpace c = false) :
    (Parameter.zero.parse text).SubCommand.data ≠ [] ∧
    (∀ c, (Parameter.zero.parse text).SubCommand.data.head? = some c → IsSpace c = false) ∧
    ' ' ∉ (Parameter.zero.parse text).SubCommand.data ∧
    ((Parameter.zero.parse text).SubCommand.data = (TrimSpace text).data ∨
      ∃ rest, (TrimSpace text).data =
        (Parameter.zero.parse text).SubCommand.data ++ ' ' :: rest) ∧
    (Parameter.zero.parse text).SubCommand.data =
      (TrimSpace text).data.takeWhile (· ≠ ' ') := by
  obtain ⟨c, hc, hs⟩ := h
  have hne := TrimSpace_ne_nil text c hc hs
  have hhead := TrimSpace_head text
  by_cases hsp : ' ' ∈ (TrimSpace text).data
  · obtain ⟨a, b, hab, ha⟩ := exists_first_space (TrimSpace text).data hsp
    have hp := parse_split Parameter.zero text a b hab ha
    have hane : a ≠ [] := by
      intro ha0
      have h1 := hhead ' ' (by rw [hab, ha0]; rfl)
      exact absurd h1 (by decide)
    have htw := takeWhile_first_space a b ha
    rw [hp]
    refine ⟨hane, ?_, ha, Or.inr ⟨b, hab⟩, ?_⟩
    · intro c1 hc1
      apply hhead c1
      rw [hab]
      cases a with
      | nil => exact absurd rfl hane
      | cons x a => simpa using hc1
    · rw [hab, htw]
  · have hp := parse_whole Parameter.zero text hne hsp
    rw [hp]
    refine ⟨hne, hhead, hsp, Or.inl rfl, ?_⟩
    symm
    apply List.takeWhile_eq_self_iff.mpr
    intro x hx
    have : x ≠ ' ' := fun e => hsp (e ▸ hx)
    simpa using this

theorem SubCommand_first_space_token_witness :
    (Parameter.zero.parse " add\tSushi  Place ").SubCommand.data ≠ [] ∧
    (∀ c, (Parameter.zero.parse " add\tSushi  Place ").SubCommand.data.head? = some c →
      IsSpace c = false) ∧
    ' ' ∉ (Parameter.zero.parse " add\tSushi  Place ").SubCommand.data ∧
    ((Parameter.zero.parse " add\tSushi  Place ").SubCommand.data =
        (TrimSpace " add\tSushi  Place ").data ∨
      ∃ rest, (TrimSpace " add\tSushi  Place ").data =
        (Parameter.zero.parse " add\tSushi  Place ").SubCommand.data ++ ' ' :: rest) ∧
    (Parameter.zero.parse " add\tSushi  Place ").SubCommand.data =
      (TrimSpace " add\tSushi  Place ").data.takeWhile (· ≠ ' ') :=
  SubCommand_first_space_token " add\tSushi  Place " ⟨'a', by decide, by decide⟩

/-! ## The `add` command -/

/-- C5: for a POST request with the valid token whose parsed sub-command is
"add" and whose parsed remainder is `v`, the handler calls `add` once, with
`v`, and no other store operation.  When the call returns no error the response
is status 200 with body `v` and the store is the one `add` left; when it
returns an error the response is status 500 with the error's message as
body. -/
theorem Lunch_add (env : Env) (r : Request) (db : Datastore) (b v : String) (vals : Values)
    (hm : r.Method = "POST") (hb : r.Body = .ok b) (hp : env.ParseQuery b = (vals, none))
    (ht : vals.Get "token" = env.SLACK_TOKEN)
    (hs : Parameter.zero.parse (vals.Get "text") = ⟨"add", v⟩) :
    (Lunch env r db).calls = [StoreCall.add v] ∧
    (Lunch env r db).db = (add env v db).2 ∧
    ((add env v db).1 = none → (Lunch env r db).resp = some ⟨200, v⟩) ∧
    (∀ e, (add env v db).1 = some e → (Lunch env r db).resp = some ⟨500, e⟩) := by
  rcases hadd : add env v db with ⟨err, db1⟩
  cases err with
  | none => simp [Lunch, hm, hb, hp, ht, hs, hadd, StatusOK]
  | some e => simp [Lunch, hm, hb, hp, ht, hs, hadd, StatusInternalServerError]

theorem Lunch_add_witness :
    ((Lunch exampleEnv (post "token=s3cret&text=add+Sushi+Place") []).calls =
        [StoreCall.add "Sushi Place"] ∧
      (Lunch exampleEnv (post "token=s3cret&text=add+Sushi+Place") []).resp =
        some ⟨200, "Sushi Place"⟩) ∧
    ((Lunch failingEnv (post "token=s3cret&text=add+Sushi+Place") []).calls =
        [StoreCall.add "Sushi Place"] ∧
      (Lunch failingEnv (post "token=s3cret&text=add+Sushi+Place") []).resp =
        some ⟨500, "rpc error: unavailable"⟩) :=
  ⟨⟨(Lunch_add exampleEnv (post "token=s3cret&text=add+Sushi+Place") []
        "token=s3cret&text=add+Sushi+Place" "Sushi Place"
        ⟨[("token", ["s3cret"]), ("text", ["add Sushi Place"])]⟩
        rfl rfl (by decide) (by decide) (by decide)).1,
    (Lunch_add exampleEnv (post "token=s3cret&text=add+Sushi+Place") []
        "token=s3cret&text=add+Sushi+Place" "Sushi Place"
        ⟨[("token", ["s3cret"]), ("text", ["add Sushi Place"])]⟩
        rfl rfl (by decide) (by decide) (by decide)).2.2.1 (by decide)⟩,
   ⟨(Lunch_add failingEnv (post "token=s3cret&text=add+Sushi+Place") []
        "token=s3cret&text=add+Sushi+Place" "Sushi Place"
        ⟨[("token", ["s3cret"]), ("text", ["add Sushi Place"])]⟩
        rfl rfl (by decide) (by decide) (by decide)).1,
    (Lunch_add failingEnv (post "token=s3cret&text=add+Sushi+Place") []
        "token=s3cret&text=add+Sushi+Place" "Sushi Place"
        ⟨[("token", ["s3cret"]), ("text", ["add Sushi Place"])]⟩
        rfl rfl (by decide) (by decide) (by decide)).2.2.2 "rpc error: unavailable" (by decide)⟩⟩

/-! ## The `list` command -/

theorem join_cons (a : String) (l : List String) :
    String.join (a :: l) = a ++ String.join l := by
  apply String.ext
  simp [String.join_eq]

theorem sprint_foldl (l : List Restaurant) (acc : String) :
    l.foldl (fun s r => s ++ line r) acc = acc ++ String.join (l.map line) := by
  induction l generalizing acc with
  | nil => simp [String.join]
  | cons r l ih =>
    rw [List.foldl_cons, ih, List.map_cons, join_cons, String.append_assoc]

theorem sprint_eq_join (l : List Restaurant) : sprint l = String.join (l.map line) := by
  unfold sprint
  rw [sprint_foldl]
  simp

theorem line_eq (r : Restaurant) : line r = lineText r ++ "\n" := rfl

theorem intercalate_go (acc sep : String) (l : List String) :
    String.intercalate.go acc sep l = acc ++ String.join (l.map (sep ++ ·)) := by
  induction l generalizing acc with
  | nil => simp [String.intercalate.go, String.join]
  | cons a l ih =>
    rw [String.intercalate.go, ih, List.map_cons, join_cons]
    simp [String.append_assoc]

theorem join_shift (l : List Restaurant) :
    String.join (l.map (fun r => "\n" ++ lineText r)) ++ "\n" =
      "\n" ++ String.join (l.map line) := by
  induction l with
  | nil => simp [String.join]
  | cons r l ih =>
    rw [List.map_cons, List.map_cons, join_cons, join_cons, String.append_assoc, ih, line_eq]
    simp [String.append_assoc]

theorem join_lines (l : List Restaurant) (h : l ≠ []) :
    String.join (l.map line) = newlineJoined l ++ "\n" := by
  cases l with
  | nil => exact absurd rfl h
  | cons r l =>
    have hn : newlineJoined (r :: l) =
        lineText r ++ String.join (l.map (fun x => "\n" ++ lineText x)) := by
      unfold newlineJoined
      rw [List.map_cons, String.intercalate, intercalate_go, List.map_map]
      rfl
    rw [hn, List.map_cons, join_cons, String.append_assoc, join_shift, line_eq,
      String.append_assoc]

/-- C6, as stated, fails: for two entities the body is
"[42] Sushi Place\n[7] Soba\n", with a newline after the last line, while the
lines joined by newlines are "[42] Sushi Place\n[7] Soba"; and a name with a
newline in it, which the `add` command stores as it is, makes the body of a
single entity two lines long. -/
theorem sprint_not_newline_joined :
    (sprint [⟨42, "Sushi Place", 1000⟩, ⟨7, "Soba", 900⟩] = "[42] Sushi Place\n[7] Soba\n" ∧
      newlineJoined [⟨42, "Sushi Place", 1000⟩, ⟨7, "Soba", 900⟩] =
        "[42] Sushi Place\n[7] Soba" ∧
      sprint [⟨42, "Sushi Place", 1000⟩, ⟨7, "Soba", 900⟩] ≠
        newlineJoined [⟨42, "Sushi Place", 1000⟩, ⟨7, "Soba", 900⟩]) ∧
    ((Lunch exampleEnv (post "token=s3cret&text=add+Sushi%0APlace") []).db =
        [⟨⟨"Restaurant", 42⟩, "Sushi\nPlace", 1000⟩] ∧
      list exampleEnv [⟨⟨"Restaurant", 42⟩, "Sushi\nPlace", 1000⟩] =
        some (.ok [⟨42, "Sushi\nPlace", 1000⟩]) ∧
      sprint [⟨42, "Sushi\nPlace", 1000⟩] = "[42] Sushi\nPlace\n" ∧
      (sprint [⟨42, "Sushi\nPlace", 1000⟩]).data.count '\n' = 2) :=
  ⟨by decide, by decide, rfl, by decide, by decide⟩

/-- C6, amended: `sprint l` is the concatenation, in the order of `l`, of one
piece per entity, the piece being `[<id>] <name>` followed by a newline.  So
the body is empty for the empty list, and for a non-empty list it is the lines
`[<id>] <name>` joined by newlines followed by one closing newline.  A
successful `list` request is answered with status 200 and this body. -/
theorem sprint_lines (l : List Restaurant) :
    sprint l =
      String.join (l.map (fun r => "[" ++ toString r.ID ++ "] " ++ r.Name ++ "\n")) ∧
    (l = [] → sprint l = "") ∧
    (l ≠ [] → sprint l = newlineJoined l ++ "\n") ∧
    ∀ (env : Env) (r : Request) (db : Datastore) (b : String) (vals : Values),
      r.Method = "POST" → r.Body = .ok b → env.ParseQuery b = (vals, none) →
      vals.Get "token" = env.SLACK_TOKEN →
      (Parameter.zero.parse (vals.Get "text")).SubCommand = "list" →
      list env db = some (.ok l) →
      Lunch env r db = ⟨some ⟨200, sprint l⟩, [], [.list], db⟩ := by
  refine ⟨sprint_eq_join l, ?_, ?_, ?_⟩
  · intro h
    rw [h]
    rfl
  · intro h
    rw [sprint_eq_join, join_lines l h]
  · intro env r db b vals hm hb hp ht hs hl
    have h1 : ¬ (("list" : String) = "add") := by decide
    simp [Lunch, hm, hb, hp, ht, hs, hl, h1, StatusOK]

theorem sprint_lines_witness :
    sprint [⟨42, "Sushi Place", 1000⟩, ⟨7, "Soba", 900⟩] =
      newlineJoined [⟨42, "Sushi Place", 1000⟩, ⟨7, "Soba", 900⟩] ++ "\n" ∧
    sprint [] = "" ∧
    Lunch exampleEnv (post "token=s3cret&text=list")
        [⟨⟨"Restaurant", 42⟩, "Sushi Place", 1000⟩, ⟨⟨"Restaurant", 7⟩, "Soba", 900⟩] =
      ⟨some ⟨200, sprint [⟨42, "Sushi Place", 1000⟩, ⟨7, "Soba", 900⟩]⟩, [], [.list],
        [⟨⟨"Restaurant", 42⟩, "Sushi Place", 1000⟩, ⟨⟨"Restaurant", 7⟩, "Soba", 900⟩]⟩ :=
  ⟨(sprint_lines [⟨42, "Sushi Place", 1000⟩, ⟨7, "Soba", 900⟩]).2.2.1 (by decide),
    (sprint_lines []).2.1 rfl,
    (sprint_lines [⟨42, "Sushi Place", 1000⟩, ⟨7, "Soba", 900⟩]).2.2.2 exampleEnv
      (post "token=s3cret&text=list")
      [⟨⟨"Restaurant", 42⟩, "Sushi Place", 1000⟩, ⟨⟨"Restaurant", 7⟩, "Soba", 900⟩]
      "token=s3cret&text=list" ⟨[("token", ["s3cret"]), ("text", ["list"])]⟩
      rfl rfl (by decide) (by decide) (by decide) rfl⟩

theorem fillIDs_map (es : List Entity) :
    fillIDs (es.map (fun e => ⟨0, e.name, e.created⟩)) (es.map (·.key)) =
      some (es.map restaurantOf) := by
  induction es with
  | nil => rfl
  | cons e es ih => simp [fillIDs, ih, restaurantOf]

theorem list_eq (env : Env) (db : Datastore) :
    list env db =
      match env.NewClient env.PROJECT_NAME with
      | some err => some (.error err)
      | none =>
        match env.GetAllErr with
        | some err => some (.error err)
        | none => some (.ok ((((restaurants db).insertionSort createdDesc).take 5).map
            restaurantOf)) := by
  unfold list
  cases hc : env.NewClient env.PROJECT_NAME with
  | some err => rfl
  | none =>
    cases hg : env.GetAllErr with
    | some err => simp [GetAll, hg]
    | none =>
      simp only [GetAll, hg, NewQuery, Query.Order, Query.Limit, if_true]
      rw [fillIDs_map]
      rfl

theorem list_ok (env : Env) (db : Datastore) (hc : env.NewClient env.PROJECT_NAME = none)
    (hg : env.GetAllErr = none) :
    list env db = some (.ok ((((restaurants db).insertionSort createdDesc).take 5).map
      restaurantOf)) := by
  rw [list_eq, hc, hg]

theorem list_ok_inv (env : Env) (db : Datastore) (rs : List Restaurant)
    (h : list env db = some (.ok rs)) :
    rs = (((restaurants db).insertionSort createdDesc).take 5).map restaurantOf := by
  rw [list_eq] at h
  cases hc : env.NewClient env.PROJECT_NAME with
  | some err => rw [hc] at h; simp at h
  | none =>
    cases hg : env.GetAllErr with
    | some err => rw [hc, hg] at h; simp at h
    | none =>
      rw [hc, hg] at h
      simp only [Option.some.injEq, Except.ok.injEq] at h
      exact h.symm

/-- C7: whatever the Restaurant collection holds, `list` returns a result
whenever the store answers without error, and a successful `list` returns at
most 5 entities (5, or all of them when there are fewer), in descending order
of `created`; they are entities of the collection, none of the entities left
out has a later `created` than a returned one, and each returned struct has as
`ID` the identifier of its entity's key. -/
theorem list_five_latest (env : Env) (db : Datastore) :
    (env.NewClient env.PROJECT_NAME = none → env.GetAllErr = none →
      ∃ rs, list env db = some (.ok rs)) ∧
    ∀ rs, list env db = some (.ok rs) →
      rs.length ≤ 5 ∧ rs.length = min 5 (restaurants db).length ∧
      rs.Pairwise (fun a b => b.Created ≤ a.Created) ∧
      ∃ top rest : List Entity, (top ++ rest).Perm (restaurants db) ∧
        rs = top.map (fun e => ⟨e.key.ID, e.name, e.created⟩) ∧
        ∀ x ∈ top, ∀ y ∈ rest, y.created ≤ x.created := by
  refine ⟨fun hc hg => ⟨_, list_ok env db hc hg⟩, ?_⟩
  intro rs h
  have hrs := list_ok_inv env db rs h
  have hsorted : ((restaurants db).insertionSort createdDesc).Sorted createdDesc :=
    List.sorted_insertionSort createdDesc _
  have hlen : rs.length = min 5 (restaurants db).length := by
    rw [hrs, List.length_map, List.length_take, List.length_insertionSort]
  refine ⟨by rw [hlen]; exact Nat.min_le_left _ _, hlen, ?_, ?_⟩
  · rw [hrs, List.pairwise_map]
    exact List.Pairwise.sublist (List.take_sublist _ _) hsorted
  · refine ⟨((restaurants db).insertionSort createdDesc).take 5,
      ((restaurants db).insertionSort createdDesc).drop 5, ?_, ?_, ?_⟩
    · rw [List.take_append_drop]
      exact List.perm_insertionSort createdDesc _
    · rw [hrs]
      rfl
    · intro x hx y hy
      exact hsorted.rel_of_mem_take_of_mem_drop hx hy

theorem list_five_latest_witness :
    list exampleEnv sevenRestaurants =
      some (.ok [⟨12, "Soba", 700⟩, ⟨8, "Sushi", 600⟩, ⟨40, "Tempura", 500⟩,
        ⟨63, "Yakitori", 400⟩, ⟨31, "Udon", 300⟩]) ∧
    ∃ top rest : List Entity, (top ++ rest).Perm (restaurants sevenRestaurants) ∧
      [⟨12, "Soba", 700⟩, ⟨8, "Sushi", 600⟩, ⟨40, "Tempura", 500⟩,
        ⟨63, "Yakitori", 400⟩, ⟨31, "Udon", 300⟩] =
        top.map (fun e => (⟨e.key.ID, e.name, e.created⟩ : Restaurant)) ∧
      ∀ x ∈ top, ∀ y ∈ rest, y.created ≤ x.created :=
  ⟨rfl, ((list_five_latest exampleEnv sevenRestaurants).2 _ rfl).2.2.2⟩

/-! ## Adding, then listing -/

theorem add_ok (env : Env) (value : String) (db db1 : Datastore)
    (h : add env value db = (none, db1)) : db1 = stored (env, value) :: db := by
  unfold add at h
  cases hc : env.NewClient env.PROJECT_NAME with
  | some err => rw [hc] at h; simp at h
  | none =>
    cases hp : env.PutErr with
    | some err => simp [hc, Put, hp] at h
    | none =>
      simp [hc, Put, hp, IncompleteKey] at h
      rw [← h]
      rfl

theorem addAll_eq (steps : List (Env × String)) (db0 db : Datastore)
    (h : addAll steps db0 = some db) : db = (steps.map stored).reverse ++ db0 := by
  induction steps generalizing db0 with
  | nil =>
    simp [addAll] at h
    simp [h]
  | cons st steps ih =>
    obtain ⟨env, value⟩ := st
    rcases hadd : add env value db0 with ⟨err, db1⟩
    cases err with
    | some e => simp [addAll, hadd] at h
    | none =>
      simp only [addAll, hadd] at h
      have h1 := add_ok env value db0 db1 hadd
      rw [ih db1 h, h1]
      simp

theorem restaurants_added (steps : List (Env × String)) (db0 : Datastore)
    (h0 : restaurants db0 = []) :
    restaurants ((steps.map stored).reverse ++ db0) = (steps.map stored).reverse := by
  unfold restaurants at h0 ⊢
  rw [List.filter_append, h0, List.append_nil]
  apply List.filter_eq_self.mpr
  intro e he
  simp only [List.mem_reverse, List.mem_map] at he
  obtain ⟨st, _, rfl⟩ := he
  simp [stored]

theorem restaurantOf_stored : restaurantOf ∘ stored = added := rfl

/-- C8: starting from a store without restaurants, after `add` calls without
error for at most 5 names (distinct or not), a following `list` succeeds
whenever the store answers it without error, and returns exactly the added
entities, each with the name of its `add` and the identifier the store
assigned in that `add`, in descending order of `created`; when the clock
advanced between the calls this is the reverse of the order of adding, newest
first.  The rendered body consists of the pieces `[<id>] <name>` with a
newline, one for each of them. -/
theorem add_then_list (steps : List (Env × String)) (env : Env) (db0 db : Datastore)
    (h0 : restaurants db0 = []) (hn : steps.length ≤ 5)
    (hadd : addAll steps db0 = some db)
    (hc : env.NewClient env.PROJECT_NAME = none) (hg : env.GetAllErr = none) :
    ∃ rs, list env db = some (.ok rs) ∧
      rs.Perm (steps.map added) ∧
      rs.Pairwise (fun a b => b.Created ≤ a.Created) ∧
      ((steps.map (fun st => st.1.Now)).Pairwise (· < ·) → rs = (steps.map added).reverse) ∧
      sprint rs = String.join (rs.map line) ∧
      (∀ st ∈ steps, line (added st) ∈ rs.map line) ∧
      (rs.map line).length = steps.length := by
  have hdb := addAll_eq steps db0 db hadd
  have hr : restaurants db = (steps.map stored).reverse := by
    rw [hdb]
    exact restaurants_added steps db0 h0
  have hlen : ((steps.map stored).reverse.insertionSort createdDesc).length ≤ 5 := by
    rw [List.length_insertionSort, List.length_reverse, List.length_map]
    exact hn
  have hl := list_ok env db hc hg
  rw [hr, List.take_of_length_le hlen] at hl
  have hperm : (((steps.map stored).reverse.insertionSort createdDesc).map restaurantOf).Perm
      (steps.map added) := by
    have h1 : ((steps.map stored).reverse.insertionSort createdDesc).Perm (steps.map stored) :=
      (List.perm_insertionSort createdDesc _).trans (List.reverse_perm _)
    have h2 := h1.map restaurantOf
    rw [List.map_map, restaurantOf_stored] at h2
    exact h2
  refine ⟨_, hl, hperm, ?_, ?_, sprint_eq_join _, ?_, ?_⟩
  · rw [List.pairwise_map]
    exact List.sorted_insertionSort createdDesc _
  · intro hclock
    have hs : ((steps.map stored).reverse).Sorted createdDesc := by
      unfold List.Sorted
      rw [List.pairwise_reverse, List.pairwise_map]
      rw [List.pairwise_map] at hclock
      exact hclock.imp (fun {a b} hab => Nat.le_of_lt hab)
    rw [hs.insertionSort_eq, ← List.map_reverse, ← List.map_reverse, List.map_map,
      restaurantOf_stored]
  · intro st hst
    have hmem : added st ∈ steps.map added := List.mem_map_of_mem added hst
    exact List.mem_map_of_mem line (hperm.symm.subset hmem)
  · rw [List.length_map, hperm.length_eq, List.length_map]

theorem add_then_list_witness :
    ∃ rs, list exampleEnv
        [⟨⟨"Restaurant", 260⟩, "Udon", 30⟩, ⟨⟨"Restaurant", 17⟩, "Sushi Place", 20⟩,
         ⟨⟨"Restaurant", 501⟩, "Soba", 10⟩] = some (.ok rs) ∧
      rs.Perm (threeAdds.map added) ∧
      rs.Pairwise (fun a b => b.Created ≤ a.Created) ∧
      ((threeAdds.map (fun st => st.1.Now)).Pairwise (· < ·) →
        rs = (threeAdds.map added).reverse) ∧
      sprint rs = String.join (rs.map line) ∧
      (∀ st ∈ threeAdds, line (added st) ∈ rs.map line) ∧
      (rs.map line).length = threeAdds.length :=
  add_then_list threeAdds exampleEnv []
    [⟨⟨"Restaurant", 260⟩, "Udon", 30⟩, ⟨⟨"Restaurant", 17⟩, "Sushi Place", 20⟩,
     ⟨⟨"Restaurant", 501⟩, "Soba", 10⟩]
    rfl (by decide) (by decide) rfl rfl

end lunch
